import Mathlib

/-!
Verification of the Haystack fuzzy text-matching engine (src/Haystack.js).

Strings of the JavaScript source are modelled as lists of characters
(`JStr`); the engine's functions are translated one-for-one into
executable Lean definitions, with in-place mutation of the caller's
source object made explicit in the returned `SearchTrace`, and thrown
exceptions modelled by `Except`.
-/

set_option linter.unusedVariables false

namespace Haystack

/-- A JavaScript string, modelled as a list of characters. -/
abbrev JStr := List Char

/-- The space character (used as the default token delimiter). -/
def spaceChar : Char := Char.ofNat 32

/-- The comma character (used by JavaScript `Array.prototype.toString`). -/
def commaChar : Char := Char.ofNat 44

/-- JavaScript `String.prototype.toLowerCase`, restricted to the ASCII range. -/
def jsToLower (s : JStr) : JStr := s.map Char.toLower

/-- JavaScript `String.prototype.trim`: removes whitespace from both ends. -/
def jsTrim (s : JStr) : JStr :=
  ((s.dropWhile Char.isWhitespace).reverse.dropWhile Char.isWhitespace).reverse

/-- JavaScript `String.prototype.split` with a single-character delimiter:
splits on every occurrence, preserving empty segments, and returns one
((possibly empty)) segment even for the empty string. -/
def splitOnChar (d : Char) : JStr → List JStr
  | [] => [[]]
  | c :: rest =>
    if c = d then [] :: splitOnChar d rest
    else
      match splitOnChar d rest with
      | [] => [[c]]
      | t :: ts => (c :: t) :: ts

/-- Tests whether the second list is a prefix of the first (helper for
the substring test of JavaScript `String.prototype.indexOf`). -/
def listStartsWith : JStr → JStr → Bool
  | _, [] => true
  | [], _ :: _ => false
  | c :: cs, d :: ds => c == d && listStartsWith cs ds

/-- JavaScript `hay.indexOf(needle) != -1`: the needle occurs as a
contiguous substring of the haystack. -/
def jsIncludes : JStr → JStr → Bool
  | hay, needle =>
    if listStartsWith hay needle then true
    else
      match hay with
      | [] => false
      | _ :: rest => jsIncludes rest needle

/-- JavaScript `s.replace(pat, "")` for a plain (non-regex) pattern:
removes the first occurrence of `pat` from `s`, if any. -/
def replaceFirst : JStr → JStr → JStr
  | [], _ => []
  | c :: rest, pat =>
    if listStartsWith (c :: rest) pat then List.drop pat.length (c :: rest)
    else c :: replaceFirst rest pat

/-- The source's `tokenize` method: splits the input on the delimiter
(`input.split(delimiter)`, line 182). -/
def tokenize (input : JStr) (delimiter : Char) : List JStr :=
  splitOnChar delimiter input

/-- The source's `minimum(a, b, c)` helper inside `levenshtein`
(lines 216-225). -/
def minimum3 (a b c : Nat) : Nat := Nat.min (Nat.min a b) c

/-- JavaScript `x == y` where `x`, `y` are the results of `charAt`:
out-of-range `charAt` yields the empty string, which is equal to no
single character, so the comparison holds only when both positions are
in range and the characters agree. -/
def jsCharEq (x y : Option Char) : Bool :=
  match x, y with
  | some c, some d => c == d
  | _, _ => false

/-- The dynamic-programming cost table of `levenshtein` (lines 232-251):
`costTableF str1 str2 fuel i j` is the table entry `cost[i][j]`.  The
`fuel` argument only bounds the recursion depth; every recursive call
decreases `i + j` by at least one, so `fuel = i + j` always suffices and
the zero-fuel branch is unreachable from `costTable`. -/
def costTableF (str1 str2 : JStr) : Nat → Nat → Nat → Nat
  | _, 0, j => j
  | _, i + 1, 0 => i + 1
  | 0, _ + 1, _ + 1 => 0
  | fuel + 1, i + 1, j + 1 =>
    if jsCharEq str1[i]? str2[j]? then
      costTableF str1 str2 fuel i j
    else
      1 + minimum3 (costTableF str1 str2 fuel i j)
            (costTableF str1 str2 fuel (i + 1) j)
            (costTableF str1 str2 fuel i (j + 1))

/-- Entry `cost[i][j]` of the levenshtein cost table. -/
def costTable (str1 str2 : JStr) (i j : Nat) : Nat :=
  costTableF str1 str2 (i + j) i j

/-- The source's `levenshtein(word1, word2)` (lines 209-253), translated
faithfully: `str1 = word1`, `str2 = word2`, `n = str1.length`, and —
exactly as in the source — `m = word1.length` (not `word2.length`).
Returns `none` where the JavaScript returns `undefined` (the two early
`return;` statements), otherwise `cost[n][m]`. -/
def levenshtein (word1 word2 : JStr) : Option Nat :=
  let str1 := word1
  let str2 := word2
  let n := str1.length
  let m := word1.length
  if n = 0 then none
  else if m = 0 then none
  else some (costTable str1 str2 n m)

/-- The edit-distance contract as the specification states it (section 4.1):
the classic dynamic-programming table of size `(n+1) x (m+1)` with
`n = |A|` and `m = |B|`, row 0 and column 0 initialized to their index,
and cell `(i,j)` equal to `cost(i-1,j-1)` when the characters match and
`1 + min` of the three neighbours otherwise.  Declared only to compare
the source's `levenshtein` against the specification's contract. -/
def levenshteinSpec (a b : JStr) : Nat :=
  costTable a b a.length b.length

/-- The comparison in `sortResults` (line 308):
`levenshtein(query, a) > levenshtein(query, b)`.  In JavaScript any
`>` comparison against `undefined` is false, so the result is `false`
unless both distances are numbers. -/
def levGtB (query a b : JStr) : Bool :=
  match levenshtein query a, levenshtein query b with
  | some x, some y => decide (y < x)
  | _, _ => false

/-- The full swap condition of `sortResults` (line 308):
`results[i] && results[i+1] && levenshtein(query, results[i]) >
levenshtein(query, results[i+1])`.  The empty string is falsy in
JavaScript, so a pair involving an empty string is never swapped. -/
def swapCondB (query a b : JStr) : Bool :=
  !a.isEmpty && (!b.isEmpty && levGtB query a b)

/-- One sweep of the bubble sort of `sortResults` (lines 305-315),
carrying the element currently "in hand": a swap keeps the in-hand
element and emits its neighbour, exactly like the in-place adjacent
swap of the source's `for` loop. -/
def passAux (query : JStr) (cur : JStr) : List JStr → List JStr × Bool
  | [] => ([cur], false)
  | b :: rest =>
    if swapCondB query cur b then
      let p := passAux query cur rest
      (b :: p.1, true)
    else
      let p := passAux query b rest
      (cur :: p.1, p.2)

/-- One full pass of the `do`-loop of `sortResults`, returning the
updated array and the `swapped` flag. -/
def bubblePass (query : JStr) : List JStr → List JStr × Bool
  | [] => ([], false)
  | a :: rest => passAux query a rest

/-- Number of adjacent-or-distant pairs still satisfying the swap
condition; used to bound how many passes the bubble sort can make. -/
def invCount (query : JStr) : List JStr → Nat
  | [] => 0
  | a :: rest => rest.countP (fun b => swapCondB query a b) + invCount query rest

/-- The `do ... while(swapped)` loop of `sortResults`, with an explicit
bound on the number of passes.  Each pass that swaps strictly decreases
`invCount`, so `invCount + 1` passes always reach the source's fixpoint
(`bubbleLoopF_fix` below); the zero-fuel branch is unreachable from
`sortResults`. -/
def bubbleLoopF (query : JStr) : Nat → List JStr → List JStr
  | 0, l => l
  | fuel + 1, l =>
    let p := bubblePass query l
    if p.2 then bubbleLoopF query fuel p.1 else p.1

/-- The source's `sortResults(results, query)` (lines 303-317): bubble
sort by ascending `levenshtein(query, .)`, skipping falsy entries. -/
def sortResults (results : List JStr) (query : JStr) : List JStr :=
  bubbleLoopF query (invCount query results + 1) results

/-- The filter callback of `getSimilarWords` (lines 279-284): the word
is kept when its distance to the input is a number within the
threshold — and, because the callback returns the word itself and the
empty string is falsy, only when the word is non-empty. -/
def similarKeep (input : JStr) (threshold : Nat) (w : JStr) : Bool :=
  match levenshtein input w with
  | some levDist => decide (levDist ≤ threshold) && !w.isEmpty
  | none => false

/-- The source's `getSimilarWords(input, source, limit, threshold)`
(lines 274-298), at its only call site (line 123) where `limit` is
`null`: filter the source by `similarKeep`, sort, and return the whole
sorted match set. -/
def getSimilarWords (input : JStr) (source : List JStr) (threshold : Nat) : List JStr :=
  let found := source.filter (fun w => similarKeep input threshold w)
  sortResults found input

/-- The source's `createUniqueArray` (lines 322-327):
`arr.filter((item, pos) => arr.indexOf(item) == pos)` keeps exactly the
first occurrence of each value. -/
def uniqueAux : List JStr → List JStr → List JStr
  | _, [] => []
  | seen, x :: rest =>
    if x ∈ seen then uniqueAux (seen ++ [x]) rest
    else x :: uniqueAux (seen ++ [x]) rest

/-- Removes duplicates, keeping first occurrences (lines 322-327). -/
def createUniqueArray (arr : List JStr) : List JStr :=
  uniqueAux [] arr

/-- JavaScript `results.slice(0, limit)` (line 167): a negative end
index counts from the end of the array, and the result is clamped to
the array bounds. -/
def jsSlice (l : List JStr) (limit : Int) : List JStr :=
  if limit < 0 then l.take (((l.length : Int) + limit)).toNat
  else l.take limit.toNat

/-- The source's `removeStopWords(query)` (lines 345-372). -/
def removeStopWords (query : JStr) : JStr :=
  let words := splitOnChar spaceChar query
  let newQuery := words.filter
    (fun w => !([("the".toList), ("a".toList), ("to".toList), ("on".toList),
                 ("in".toList), ("is".toList), ("and".toList)].contains (jsToLower w)))
  List.intercalate [spaceChar] newQuery

/-- The exclusion step of `search` (lines 62-64):
`query.replace(exclusions, "")`, guarded by JavaScript truthiness of
`exclusions` (both `null` and the empty string are falsy). -/
def applyExclusions (ex : Option JStr) (q : JStr) : JStr :=
  match ex with
  | none => q
  | some e => if e.isEmpty then q else replaceFirst q e

/-- The engine's configuration record (constructor, lines 10-33). -/
structure HOptions where
  caseSensitive : Bool
  flexibility : Nat
  stemming : Bool
  exclusions : Option JStr
  ignoreStopWords : Bool
deriving DecidableEq

/-- The default options (lines 18-24). -/
def defaultOptions : HOptions := ⟨false, 2, false, none, false⟩

/-- The caller's `source` argument: an array of strings, an object
(mapping) with string values in insertion order, or any other value
(for which `getDataType` returns `null`, lines 332-340). -/
inductive JsSource where
  | arr (a : List JStr)
  | obj (o : List (String × JStr))
  | other
deriving DecidableEq

/-- The string values held by a source. -/
def sourceVals : JsSource → List JStr
  | .arr a => a
  | .obj o => o.map Prod.snd
  | .other => []

/-- Observable outcome of one `search` call: the final normalized query
(the value of the local `query` variable when the matcher runs), the raw
match list accumulated by the three tiers, the returned value (`none`
for JavaScript `null`), and the state of the caller's `source` argument
after the call (an object source is case-folded in place, line 78). -/
structure SearchTrace where
  finalQuery : JStr
  raw : List JStr
  result : Option (List JStr)
  finalSource : JsSource
deriving DecidableEq

/-- The case-handling step of `search` (lines 66-79): trims (and, when
case sensitivity is off and the source shape is recognized, lower-cases)
the query, tokenizes it, and lower-cases the source — in place for an
object source.  Returns the query, the `tokens` variable (`none` models
the JavaScript variable left `undefined`), the source seen by the
matcher, and the caller's source after this step. -/
def normalizeCase (opts : HOptions) (query : JStr) (source : JsSource) :
    JStr × Option (List JStr) × JsSource × JsSource :=
  if opts.caseSensitive then
    let q := jsTrim query
    (q, some (tokenize q spaceChar), source, source)
  else
    match source with
    | .arr a =>
      let q := jsToLower (jsTrim query)
      (q, some (tokenize q spaceChar), .arr (a.map jsToLower), source)
    | .obj o =>
      let q := jsToLower (jsTrim query)
      let folded := JsSource.obj (o.map (fun kv => (kv.1, jsToLower kv.2)))
      (q, some (tokenize q spaceChar), folded, folded)
    | .other => (query, none, source, source)

/-- The per-token stemming step (lines 85-86): strip one trailing
letter s. -/
def stripS (t : JStr) : JStr :=
  if t.getLast? = some (Char.ofNat 115) then t.dropLast else t

/-- The stemming block of `search` (lines 81-93): rebuilds the query by
joining the stemmed tokens with single spaces.  When the `tokens`
variable was never assigned (unrecognized source shape with case
sensitivity off), reading `tokens.length` throws a `TypeError`. -/
def applyStemming (stemming : Bool) (query : JStr) (tokens : Option (List JStr)) :
    Except String (JStr × Option (List JStr)) :=
  if stemming then
    match tokens with
    | none => .error ("TypeError: tokens is undefined")
    | some ts =>
      let ts := ts.map stripS
      .ok (List.intercalate [spaceChar] ts, some ts)
  else .ok (query, tokens)

/-- The three matching tiers of `search` (lines 99-161).  For an array
source the tiers run as three separate loops (substring matches, then
scrambled-token matches, then the fuzzy matches of `getSimilarWords`);
for an object source all three tiers run per value.  Reading
`tokens.length` with `tokens` unassigned throws. -/
def matchTiers (flexibility : Nat) (query : JStr) (tokens : Option (List JStr))
    (source : JsSource) : Except String (List JStr) :=
  match source with
  | .arr a =>
    match tokens with
    | none => .error ("TypeError: tokens is undefined")
    | some ts =>
      let r1 := a.filter (fun e => jsIncludes e query)
      let r2 := a.filter (fun e => ts.all (fun t => jsIncludes e t))
      let r3 := if flexibility > 0 then getSimilarWords query a flexibility else []
      .ok (r1 ++ r2 ++ r3)
  | .obj o =>
    match tokens with
    | none => .error ("TypeError: tokens is undefined")
    | some ts =>
      .ok (o.flatMap (fun kv =>
        let value := kv.2
        (if jsIncludes value query then [value] else []) ++
        (if ts.all (fun t => jsIncludes value t) then [value] else []) ++
        (if flexibility > 0 &&
            (match levenshtein (jsToLower query) (jsToLower value) with
             | some d => decide (d ≤ flexibility)
             | none => false) then [value] else [])))
  | .other => .ok []

/-- The source's `search(query, source, limit)` (lines 40-176), with the
whole observable state returned.  The no-match test on line 164 is the
JavaScript loose comparison `results == ""`, which coerces the array to
the string `results.join(",")`. -/
def searchFull (opts : HOptions) (query : JStr) (source : JsSource) (limit : Int) :
    Except String SearchTrace :=
  if query = [] then .ok ⟨query, [], none, source⟩
  else
    let q1 := if opts.ignoreStopWords then removeStopWords query else query
    let q2 := applyExclusions opts.exclusions q1
    let n := normalizeCase opts q2 source
    match applyStemming opts.stemming n.1 n.2.1 with
    | .error e => .error e
    | .ok st =>
      match matchTiers opts.flexibility st.1 st.2 n.2.2.1 with
      | .error e => .error e
      | .ok raw =>
        .ok ⟨st.1, raw,
             if List.intercalate [commaChar] raw = [] then none
             else some (jsSlice (sortResults (createUniqueArray raw) st.1) limit),
             n.2.2.2⟩

/-- The value `search` returns to the caller. -/
def search (opts : HOptions) (query : JStr) (source : JsSource) (limit : Int) :
    Except String (Option (List JStr)) :=
  (searchFull opts query source limit).map SearchTrace.result

/-- The numeric edit distance the engine uses for ranking (`0` standing
in for the unreachable undefined case). -/
def levDist (q r : JStr) : Nat := (levenshtein q r).getD 0

/-- Whether a `search` call returned normally rather than throwing. -/
def completesWithoutError (e : Except String SearchTrace) : Bool :=
  match e with
  | .ok _ => true
  | .error _ => false

/-! ### Properties of the bubble sort in `sortResults` -/

theorem invCount_cons (query a : JStr) (l : List JStr) :
    invCount query (a :: l) =
      l.countP (fun b => swapCondB query a b) + invCount query l := rfl

theorem swapCondB_asymm (query a b : JStr) (h : swapCondB query a b = true) :
    swapCondB query b a = false := by
  simp only [swapCondB, levGtB, Bool.and_eq_true, Bool.not_eq_true] at h ⊢
  rcases h with ⟨ha, hb, hgt⟩
  rw [ha, hb]
  simp only [Bool.not_false, Bool.true_and]
  cases hx : levenshtein query a with
  | none => simp [hx] at hgt
  | some x =>
    cases hy : levenshtein query b with
    | none => simp [hx, hy] at hgt
    | some y =>
      simp only [hx, hy, decide_eq_true_eq] at hgt
      simp only [hy, hx, decide_eq_false_iff_not]
      omega

theorem passAux_perm (query cur : JStr) (l : List JStr) :
    List.Perm (passAux query cur l).1 (cur :: l) := by
  induction l generalizing cur with
  | nil => simp [passAux]
  | cons b rest ih =>
    by_cases h : swapCondB query cur b = true
    · simp only [passAux, h, if_true]
      exact List.Perm.trans (List.Perm.cons b (ih cur)) (List.Perm.swap cur b rest)
    · rw [Bool.not_eq_true] at h
      simp only [passAux, h, Bool.false_eq_true, if_false]
      exact List.Perm.cons cur (ih b)

theorem passAux_snd_false_eq (query cur : JStr) (l : List JStr)
    (h : (passAux query cur l).2 = false) : (passAux query cur l).1 = cur :: l := by
  induction l generalizing cur with
  | nil => simp [passAux]
  | cons b rest ih =>
    by_cases hc : swapCondB query cur b = true
    · simp [passAux, hc] at h
    · rw [Bool.not_eq_true] at hc
      simp only [passAux, hc, Bool.false_eq_true, if_false] at h ⊢
      rw [ih b h]

theorem passAux_snd_false_chain (query cur : JStr) (l : List JStr)
    (h : (passAux query cur l).2 = false) :
    List.Chain' (fun a b => swapCondB query a b = false) (cur :: l) := by
  induction l generalizing cur with
  | nil => simp
  | cons b rest ih =>
    by_cases hc : swapCondB query cur b = true
    · simp [passAux, hc] at h
    · rw [Bool.not_eq_true] at hc
      simp only [passAux, hc, Bool.false_eq_true, if_false] at h
      exact List.chain'_cons.mpr ⟨hc, ih b h⟩

theorem passAux_invCount (query cur : JStr) (l : List JStr) :
    invCount query (passAux query cur l).1 ≤ invCount query (cur :: l) ∧
      ((passAux query cur l).2 = true →
        invCount query (passAux query cur l).1 < invCount query (cur :: l)) := by
  induction l generalizing cur with
  | nil => simp [passAux]
  | cons b rest ih =>
    by_cases hc : swapCondB query cur b = true
    · simp only [passAux, hc, if_true]
      have hperm := passAux_perm query cur rest
      have hcount := hperm.countP_eq (fun x => swapCondB query b x)
      have hasym := swapCondB_asymm query cur b hc
      have hih := (ih cur).1
      rw [invCount_cons] at hih
      have hbp : invCount query (b :: (passAux query cur rest).1) =
          rest.countP (fun x => swapCondB query b x) +
            invCount query (passAux query cur rest).1 := by
        rw [invCount_cons, hcount, List.countP_cons, hasym]
        simp
      have hcc : List.countP (fun x => swapCondB query cur x) (b :: rest) =
          List.countP (fun x => swapCondB query cur x) rest + 1 := by
        rw [List.countP_cons, hc]
        simp
      constructor
      · rw [hbp, invCount_cons, invCount_cons, hcc]
        omega
      · intro _
        rw [hbp, invCount_cons, invCount_cons, hcc]
        omega
    · rw [Bool.not_eq_true] at hc
      simp only [passAux, hc, Bool.false_eq_true, if_false]
      have hperm := passAux_perm query b rest
      have hcount := hperm.countP_eq (fun x => swapCondB query cur x)
      have hih := ih b
      constructor
      · rw [invCount_cons, hcount, invCount_cons]
        omega
      · intro hs
        rw [invCount_cons, hcount, invCount_cons]
        have := hih.2 hs
        omega

theorem bubblePass_perm (query : JStr) (l : List JStr) :
    List.Perm (bubblePass query l).1 l := by
  cases l with
  | nil => simp [bubblePass]
  | cons a rest => exact passAux_perm query a rest

theorem bubblePass_snd_false_eq (query : JStr) (l : List JStr)
    (h : (bubblePass query l).2 = false) : (bubblePass query l).1 = l := by
  cases l with
  | nil => rfl
  | cons a rest => exact passAux_snd_false_eq query a rest h

theorem bubblePass_invCount_lt (query : JStr) (l : List JStr)
    (h : (bubblePass query l).2 = true) :
    invCount query (bubblePass query l).1 < invCount query l := by
  cases l with
  | nil => simp [bubblePass] at h
  | cons a rest => exact (passAux_invCount query a rest).2 h

theorem bubbleLoopF_perm (query : JStr) (fuel : Nat) (l : List JStr) :
    List.Perm (bubbleLoopF query fuel l) l := by
  induction fuel generalizing l with
  | zero => exact List.Perm.refl l
  | succ fuel ih =>
    simp only [bubbleLoopF]
    by_cases h : (bubblePass query l).2 = true
    · simp only [h, if_true]
      exact List.Perm.trans (ih _) (bubblePass_perm query l)
    · rw [Bool.not_eq_true] at h
      simp only [h, Bool.false_eq_true, if_false]
      exact bubblePass_perm query l

theorem bubbleLoopF_fix (query : JStr) (fuel : Nat) (l : List JStr)
    (h : invCount query l < fuel) :
    (bubblePass query (bubbleLoopF query fuel l)).2 = false := by
  induction fuel generalizing l with
  | zero => omega
  | succ fuel ih =>
    simp only [bubbleLoopF]
    by_cases hs : (bubblePass query l).2 = true
    · simp only [hs, if_true]
      apply ih
      have := bubblePass_invCount_lt query l hs
      omega
    · rw [Bool.not_eq_true] at hs
      simp only [hs, Bool.false_eq_true, if_false]
      rw [bubblePass_snd_false_eq query l hs]
      exact hs

theorem sortResults_chain (l : List JStr) (query : JStr) :
    List.Chain' (fun a b => swapCondB query a b = false) (sortResults l query) := by
  have hfix := bubbleLoopF_fix query (invCount query l + 1) l (Nat.lt_succ_self _)
  rw [show bubbleLoopF query (invCount query l + 1) l = sortResults l query from rfl] at hfix
  cases hs : sortResults l query with
  | nil => simp
  | cons a rest =>
    rw [hs] at hfix
    exact passAux_snd_false_chain query a rest hfix

theorem sortResults_perm (l : List JStr) (query : JStr) :
    List.Perm (sortResults l query) l :=
  bubbleLoopF_perm query (invCount query l + 1) l

theorem levenshtein_some (q w : JStr) (hq : q ≠ []) :
    levenshtein q w = some (costTable q w q.length q.length) := by
  have hn : q.length ≠ 0 := by simpa using hq
  simp [levenshtein, hn]

theorem swapCondB_false_le (query a b : JStr) (hq : query ≠ [])
    (ha : a ≠ []) (hb : b ≠ []) (h : swapCondB query a b = false) :
    levDist query a ≤ levDist query b := by
  have ha' : a.isEmpty = false := by simpa using ha
  have hb' : b.isEmpty = false := by simpa using hb
  simp only [swapCondB, ha', hb', Bool.not_false, Bool.true_and, levGtB,
    levenshtein_some query a hq, levenshtein_some query b hq,
    decide_eq_false_iff_not, Nat.not_lt] at h
  simp only [levDist, levenshtein_some query a hq, levenshtein_some query b hq,
    Option.getD_some]
  exact h

theorem chainFalse_pairwise (query : JStr) (hq : query ≠ []) :
    ∀ l : List JStr, List.Chain' (fun a b => swapCondB query a b = false) l →
      (∀ x ∈ l, x ≠ []) →
      List.Pairwise (fun a b => levDist query a ≤ levDist query b) l := by
  intro l
  induction l with
  | nil => simp
  | cons a l ih =>
    intro hch hne
    cases l with
    | nil => simp
    | cons b rest =>
      rw [List.chain'_cons] at hch
      have hab : levDist query a ≤ levDist query b :=
        swapCondB_false_le query a b hq (hne a (by simp)) (hne b (by simp)) hch.1
      have hpl : List.Pairwise (fun x y => levDist query x ≤ levDist query y) (b :: rest) :=
        ih hch.2 (fun x hx => hne x (List.mem_cons_of_mem a hx))
      refine List.Pairwise.cons ?_ hpl
      intro x hx
      rcases List.mem_cons.mp hx with rfl | hx'
      · exact hab
      · exact le_trans hab (List.rel_of_pairwise_cons hpl hx')

/-! ### Membership helpers -/

theorem mem_uniqueAux (r : JStr) :
    ∀ (seen l : List JStr), r ∈ uniqueAux seen l → r ∈ l := by
  intro seen l
  induction l generalizing seen with
  | nil => simp [uniqueAux]
  | cons x rest ih =>
    intro h
    simp only [uniqueAux] at h
    by_cases hx : x ∈ seen
    · simp only [hx, if_true] at h
      exact List.mem_cons_of_mem x (ih _ h)
    · simp only [hx, if_false] at h
      rcases List.mem_cons.mp h with rfl | h'
      · exact List.mem_cons_self r rest
      · exact List.mem_cons_of_mem x (ih _ h')

theorem mem_createUniqueArray (r : JStr) (l : List JStr)
    (h : r ∈ createUniqueArray l) : r ∈ l :=
  mem_uniqueAux r [] l h

theorem mem_jsSlice (r : JStr) (l : List JStr) (limit : Int)
    (h : r ∈ jsSlice l limit) : r ∈ l := by
  unfold jsSlice at h
  split at h
  · exact List.mem_of_mem_take h
  · exact List.mem_of_mem_take h

theorem mem_sortResults (r : JStr) (l : List JStr) (query : JStr)
    (h : r ∈ sortResults l query) : r ∈ l :=
  (sortResults_perm l query).mem_iff.mp h

theorem mem_getSimilarWords (r input : JStr) (source : List JStr) (threshold : Nat)
    (h : r ∈ getSimilarWords input source threshold) : r ∈ source := by
  unfold getSimilarWords at h
  exact List.mem_of_mem_filter (mem_sortResults r _ input h)

theorem matchTiers_mem (flexibility : Nat) (query : JStr) (tokens : Option (List JStr))
    (source : JsSource) (raw : List JStr) (r : JStr)
    (h : matchTiers flexibility query tokens source = .ok raw) (hr : r ∈ raw) :
    r ∈ sourceVals source := by
  cases source with
  | arr a =>
    cases tokens with
    | none => simp [matchTiers] at h
    | some ts =>
      simp only [matchTiers, Except.ok.injEq] at h
      subst h
      simp only [List.mem_append] at hr
      rcases hr with (h1 | h2) | h3
      · exact List.mem_of_mem_filter h1
      · exact List.mem_of_mem_filter h2
      · rcases Nat.eq_zero_or_pos flexibility with hf | hf
        · simp [hf] at h3
        · simp only [Nat.lt_iff_add_one_le, Nat.zero_add] at hf
          simp only [show flexibility > 0 from hf, if_true] at h3
          exact mem_getSimilarWords r query a flexibility h3
  | obj o =>
    cases tokens with
    | none => simp [matchTiers] at h
    | some ts =>
      simp only [matchTiers, Except.ok.injEq] at h
      subst h
      simp only [List.mem_flatMap] at hr
      rcases hr with ⟨kv, hkv, hrv⟩
      simp only [List.mem_append] at hrv
      have : r = kv.2 := by
        rcases hrv with (h1 | h2) | h3
        · split at h1 <;> simp_all
        · split at h2 <;> simp_all
        · split at h3 <;> simp_all
      subst this
      simp only [sourceVals, List.mem_map]
      exact ⟨kv, hkv, rfl⟩
  | other =>
    simp only [matchTiers, Except.ok.injEq] at h
    subst h
    simp at hr

/-! ### Shape of a successful `search` call -/

theorem searchFull_ok_shape (opts : HOptions) (q : JStr) (src : JsSource) (limit : Int)
    (tr : SearchTrace) (h : searchFull opts q src limit = .ok tr) :
    tr.result =
      (if List.intercalate [commaChar] tr.raw = [] then none
       else some (jsSlice (sortResults (createUniqueArray tr.raw) tr.finalQuery) limit)) := by
  simp only [searchFull] at h
  split at h
  · cases h
    simp [List.intercalate]
  · split at h
    · simp at h
    · split at h
      · simp at h
      · cases h
        rfl

theorem normalizeCase_vals (opts : HOptions) (q : JStr) (src : JsSource)
    (hcs : opts.caseSensitive = false) :
    sourceVals (normalizeCase opts q src).2.2.1 = (sourceVals src).map jsToLower := by
  cases src with
  | arr a => simp [normalizeCase, hcs, sourceVals]
  | obj o =>
    simp only [normalizeCase, hcs, Bool.false_eq_true, if_false, sourceVals, List.map_map]
    rfl
  | other => simp [normalizeCase, hcs, sourceVals]

theorem searchFull_ok_raw_mem (opts : HOptions) (q : JStr) (src : JsSource) (limit : Int)
    (tr : SearchTrace) (r : JStr) (hcs : opts.caseSensitive = false)
    (h : searchFull opts q src limit = .ok tr) (hr : r ∈ tr.raw) :
    r ∈ (sourceVals src).map jsToLower := by
  simp only [searchFull] at h
  split at h
  · cases h
    simp at hr
  · split at h
    · simp at h
    · split at h
      · simp at h
      · rename_i hraw
        cases h
        have hmem := matchTiers_mem _ _ _ _ _ r hraw hr
        rw [normalizeCase_vals opts _ src hcs] at hmem
        exact hmem

theorem exists_ok_of_completes (e : Except String SearchTrace)
    (h : completesWithoutError e = true) : ∃ tr, e = .ok tr := by
  cases e with
  | error s => simp [completesWithoutError] at h
  | ok tr => exact ⟨tr, rfl⟩

/-! ### The claims -/

/-- C1: the claim says `levenshtein` returns the minimum number of
single-character edits between its two non-empty inputs.  It does not:
because the source sets `m = word1.length` instead of `word2.length`
(line 214), the second word is silently truncated or padded to the
length of the first, so `levenshtein("ab", "abcd")` is `0` while the
minimum number of edits (computed by the specification's own DP
contract) is `2`. -/
theorem C1_levenshtein_not_min_edits :
    levenshtein (("ab").toList) (("abcd").toList) = some 0 ∧
      levenshteinSpec (("ab").toList) (("abcd").toList) = 2 :=
  ⟨by decide, by decide⟩

/-- C2: the claim says `levenshtein` is symmetric on non-empty strings.
It is not: with the `m = word1.length` slip, `levenshtein("ab","abcd")`
is `0` but `levenshtein("abcd","ab")` is `2`. -/
theorem C2_levenshtein_not_symmetric :
    levenshtein (("ab").toList) (("abcd").toList) = some 0 ∧
      levenshtein (("abcd").toList) (("ab").toList) = some 2 ∧
      levenshtein (("ab").toList) (("abcd").toList) ≠
        levenshtein (("abcd").toList) (("ab").toList) :=
  ⟨by decide, by decide, by decide⟩

/-- C7: the claim says `levenshtein` returns an undefined result
whenever either input is empty.  Because both guards (lines 226-231)
test `word1`'s length, an empty second input with a non-empty first
input is not caught: `levenshtein("abc","")` returns the number `3`,
while an empty first input does return undefined. -/
theorem C7_only_first_empty_input_guarded :
    levenshtein (("abc").toList) [] = some 3 ∧
      levenshtein [] (("abc").toList) = none :=
  ⟨by decide, by decide⟩

/-- C3 counterexample: the returned list is not always sorted by
ascending distance to the final query.  The bubble-sort guard
`results[i] && results[i+1]` treats the empty string as falsy and never
swaps it, so for the mapping source `{a:"", b:"ab"}` and query `"ab"`
the output is `["", "ab"]` although the distance of `""` to the query
is `2` and that of `"ab"` is `0`. -/
theorem C3_counterexample :
    search defaultOptions (("ab").toList)
        (.obj [(("a" : String), []), (("b" : String), (("ab").toList))]) 2 =
      .ok (some [[], (("ab").toList)]) ∧
      levDist (("ab").toList) [] = 2 ∧
      levDist (("ab").toList) (("ab").toList) = 0 :=
  ⟨rfl, by decide, by decide⟩

/-- C3 amended: whenever the final normalized query is non-empty and
every entry of the returned list is a non-empty string, any two entries
R1 before R2 of the returned list satisfy
`distance(query, R1) <= distance(query, R2)` for the engine's own
`levenshtein` distance. -/
theorem C3_results_sorted_amended (opts : HOptions) (q : JStr) (src : JsSource)
    (limit : Int) (tr : SearchTrace) (res : List JStr)
    (h : searchFull opts q src limit = .ok tr) (hres : tr.result = some res)
    (hq : tr.finalQuery ≠ []) (hne : ∀ r ∈ res, r ≠ []) :
    List.Pairwise (fun r1 r2 => levDist tr.finalQuery r1 ≤ levDist tr.finalQuery r2) res := by
  have hshape := searchFull_ok_shape opts q src limit tr h
  rw [hres] at hshape
  split at hshape
  · simp at hshape
  · have hres' : res = jsSlice (sortResults (createUniqueArray tr.raw) tr.finalQuery) limit :=
      Option.some.inj hshape
    subst hres'
    have hch := sortResults_chain (createUniqueArray tr.raw) tr.finalQuery
    have hchres : List.Chain' (fun a b => swapCondB tr.finalQuery a b = false)
        (jsSlice (sortResults (createUniqueArray tr.raw) tr.finalQuery) limit) := by
      unfold jsSlice
      split
      · exact hch.take _
      · exact hch.take _
    exact chainFalse_pairwise tr.finalQuery hq _ hchres hne

/-- C3 witness: the amended sortedness theorem applied to a concrete
run over the array source `["ab","abc"]`. -/
theorem C3_results_sorted_witness :
    List.Pairwise
      (fun r1 r2 => levDist (("ab").toList) r1 ≤ levDist (("ab").toList) r2)
      [(("ab").toList), (("abc").toList)] :=
  C3_results_sorted_amended defaultOptions (("ab").toList)
    (.arr [(("ab").toList), (("abc").toList)]) 2
    ⟨(("ab").toList),
     [(("ab").toList), (("abc").toList), (("ab").toList), (("abc").toList),
      (("ab").toList), (("abc").toList)],
     some [(("ab").toList), (("abc").toList)],
     .arr [(("ab").toList), (("abc").toList)]⟩
    [(("ab").toList), (("abc").toList)]
    rfl rfl (by decide) (by decide)

/-- C4 counterexample: with `caseSensitive` off, the entries of the
returned list are the case-folded values, not the caller's original
candidate values: searching `["Abc"]` for `"abc"` returns `["abc"]`,
which is not an element of the caller's source. -/
theorem C4_counterexample :
    search defaultOptions (("abc").toList) (.arr [(("Abc").toList)]) 1 =
      .ok (some [(("abc").toList)]) ∧
      (("abc").toList) ∉ [(("Abc").toList)] :=
  ⟨rfl, by decide⟩

/-- C4 amended: with `caseSensitive` off, every entry of the returned
list is the lower-cased form of some candidate value of the caller's
source. -/
theorem C4_entries_are_folded_values (opts : HOptions) (q : JStr) (src : JsSource)
    (limit : Int) (tr : SearchTrace) (res : List JStr) (r : JStr)
    (hcs : opts.caseSensitive = false)
    (h : searchFull opts q src limit = .ok tr) (hres : tr.result = some res)
    (hr : r ∈ res) : r ∈ (sourceVals src).map jsToLower := by
  have hshape := searchFull_ok_shape opts q src limit tr h
  rw [hres] at hshape
  split at hshape
  · simp at hshape
  · have hres' : res = jsSlice (sortResults (createUniqueArray tr.raw) tr.finalQuery) limit :=
      Option.some.inj hshape
    subst hres'
    have hr2 : r ∈ tr.raw :=
      mem_createUniqueArray r _ (mem_sortResults r _ _ (mem_jsSlice r _ limit hr))
    exact searchFull_ok_raw_mem opts q src limit tr r hcs h hr2

/-- C4 witness: the amended theorem applied to the concrete source
`["Abc"]` and query `"abc"`. -/
theorem C4_entries_are_folded_values_witness :
    (("abc").toList) ∈ [(("Abc").toList)].map jsToLower :=
  C4_entries_are_folded_values defaultOptions (("abc").toList)
    (.arr [(("Abc").toList)]) 1
    ⟨(("abc").toList),
     [(("abc").toList), (("abc").toList), (("abc").toList)],
     some [(("abc").toList)], .arr [(("Abc").toList)]⟩
    [(("abc").toList)] (("abc").toList) rfl rfl rfl (by decide)

/-- C5 counterexample: a `search` call does mutate a mapping source
with string values: with the default (case-insensitive) options the
value `"Apple"` is overwritten in place with `"apple"` (line 78). -/
theorem C5_counterexample :
    (searchFull defaultOptions (("x").toList)
        (.obj [(("a" : String), (("Apple").toList))]) 1).map SearchTrace.finalSource =
      .ok (.obj [(("a" : String), (("apple").toList))]) ∧
      JsSource.obj [(("a" : String), (("apple").toList))] ≠
        JsSource.obj [(("a" : String), (("Apple").toList))] :=
  ⟨rfl, by decide⟩

/-- C5 amended: for a mapping source with string values, a `search`
call leaves the caller's mapping unchanged when the query is empty or
`caseSensitive` is on; otherwise it overwrites every value in place
with its lower-cased form (so the mapping is unchanged exactly when
every value is already fully lower-case). -/
theorem C5_mapping_mutation (opts : HOptions) (q : JStr)
    (o : List (String × JStr)) (limit : Int) :
    (searchFull opts q (.obj o) limit).map SearchTrace.finalSource =
      .ok (.obj (if q = [] ∨ opts.caseSensitive = true then o
                 else o.map (fun kv => (kv.1, jsToLower kv.2)))) := by
  by_cases hq : q = []
  · subst hq
    simp [searchFull, Except.map]
  · cases hcs : opts.caseSensitive with
    | true =>
      cases hst : opts.stemming <;>
        simp [searchFull, hq, normalizeCase, hcs, applyStemming, hst, matchTiers,
          Except.map]
    | false =>
      cases hst : opts.stemming <;>
        simp [searchFull, hq, normalizeCase, hcs, applyStemming, hst, matchTiers,
          Except.map]

/-- C6 counterexample: `search` can throw.  With `stemming` on, case
sensitivity off and an unrecognized source shape, the `tokens`
variable is never assigned and reading `tokens.length` (line 84)
throws a `TypeError` instead of degrading to a null result. -/
theorem C6_counterexample :
    searchFull ⟨false, 2, true, none, false⟩ (("ab").toList) .other 1 =
      .error ("TypeError: tokens is undefined") := rfl

/-- C6 amended: `search` completes without throwing provided stemming
is off, or `caseSensitive` is on, or the source has a recognized
(array or mapping) shape; every abnormal condition then results in a
null return or a silent no-op. -/
theorem C6_no_exception (opts : HOptions) (q : JStr) (src : JsSource) (limit : Int)
    (h : opts.stemming = false ∨ opts.caseSensitive = true ∨ src ≠ .other) :
    completesWithoutError (searchFull opts q src limit) = true := by
  by_cases hq : q = []
  · simp [searchFull, hq, completesWithoutError]
  · cases hcs : opts.caseSensitive with
    | true =>
      cases hst : opts.stemming <;> cases src <;>
        simp [searchFull, hq, normalizeCase, hcs, applyStemming, hst, matchTiers,
          completesWithoutError]
    | false =>
      cases src with
      | arr a =>
        cases hst : opts.stemming <;>
          simp [searchFull, hq, normalizeCase, hcs, applyStemming, hst, matchTiers,
            completesWithoutError]
      | obj o =>
        cases hst : opts.stemming <;>
          simp [searchFull, hq, normalizeCase, hcs, applyStemming, hst, matchTiers,
            completesWithoutError]
      | other =>
        have hst : opts.stemming = false := by
          rcases h with h | h | h
          · exact h
          · rw [hcs] at h
            exact absurd h (by simp)
          · exact absurd rfl h
        simp [searchFull, hq, normalizeCase, hcs, applyStemming, hst, matchTiers,
          completesWithoutError]

/-- C6 witness: the amended no-throw theorem applied to a concrete call
with the default options. -/
theorem C6_no_exception_witness :
    completesWithoutError
      (searchFull defaultOptions (("ab").toList) (.arr [(("x").toList)]) 1) = true :=
  C6_no_exception defaultOptions (("ab").toList) (.arr [(("x").toList)]) 1 (Or.inl rfl)

/-- C8 counterexample: the result length is not bounded by `limit` for
every value of `limit`.  JavaScript `slice(0, -1)` counts a negative
end index from the end of the array, so with `limit = -1` and two
matches the call returns one entry, and `1 <= -1` fails. -/
theorem C8_counterexample :
    search defaultOptions (("ab").toList)
        (.arr [(("ab").toList), (("abc").toList)]) (-1) =
      .ok (some [(("ab").toList)]) ∧
      ¬ ((([(("ab").toList)] : List JStr).length : Int) ≤ -1) :=
  ⟨rfl, by decide⟩

/-- C8 amended: for every non-negative `limit`, the list returned by
`search` has length at most `limit`. -/
theorem C8_limit_bounds_length (opts : HOptions) (q : JStr) (src : JsSource)
    (limit : Int) (tr : SearchTrace) (res : List JStr)
    (hlim : 0 ≤ limit)
    (h : searchFull opts q src limit = .ok tr) (hres : tr.result = some res) :
    (res.length : Int) ≤ limit := by
  have hshape := searchFull_ok_shape opts q src limit tr h
  rw [hres] at hshape
  split at hshape
  · simp at hshape
  · have hres' : res = jsSlice (sortResults (createUniqueArray tr.raw) tr.finalQuery) limit :=
      Option.some.inj hshape
    subst hres'
    unfold jsSlice
    rw [if_neg (by omega)]
    calc ((List.take limit.toNat (sortResults (createUniqueArray tr.raw) tr.finalQuery)).length : Int)
        ≤ (limit.toNat : Int) := by exact_mod_cast List.length_take_le _ _
      _ = limit := Int.toNat_of_nonneg hlim

/-- C8 witness: the amended bound applied to a concrete call with
`limit = 1`. -/
theorem C8_limit_bounds_length_witness :
    (([(("ab").toList)] : List JStr).length : Int) ≤ 1 :=
  C8_limit_bounds_length defaultOptions (("ab").toList)
    (.arr [(("ab").toList), (("abc").toList)]) 1
    ⟨(("ab").toList),
     [(("ab").toList), (("abc").toList), (("ab").toList), (("abc").toList),
      (("ab").toList), (("abc").toList)],
     some [(("ab").toList)],
     .arr [(("ab").toList), (("abc").toList)]⟩
    [(("ab").toList)] (by decide) rfl rfl

/-- C9: calling `search` with the empty string as the query returns
null, for every source, limit and configuration (line 54's guard fails
and line 173 returns null). -/
theorem C9_empty_query_returns_null (opts : HOptions) (src : JsSource) (limit : Int) :
    search opts [] src limit = .ok none := rfl

/-- C10: when the raw match list accumulated by the tiers is exactly
one empty-string candidate, the no-match check `results == ""`
(line 164) coerces the array `[""]` to the empty string and succeeds,
so `search` returns null instead of a one-element list. -/
theorem C10_single_empty_raw_returns_null (opts : HOptions) (q : JStr) (src : JsSource)
    (limit : Int) (tr : SearchTrace)
    (h : searchFull opts q src limit = .ok tr) (hraw : tr.raw = [[]]) :
    tr.result = none := by
  have hshape := searchFull_ok_shape opts q src limit tr h
  rw [hraw] at hshape
  rw [hshape]
  rw [if_pos (by decide)]

/-- C10 witness: the mapping source `{k:""}` with query `"a"` produces
the raw match list `[""]` through the fuzzy tier, and the call indeed
returns null. -/
theorem C10_single_empty_raw_returns_null_witness :
    SearchTrace.result
      ⟨(("a").toList), [[]], none, .obj [(("k" : String), [])]⟩ = none :=
  C10_single_empty_raw_returns_null defaultOptions (("a").toList)
    (.obj [(("k" : String), [])]) 1
    ⟨(("a").toList), [[]], none, .obj [(("k" : String), [])]⟩ rfl rfl

end Haystack
